import Mathlib

/-!
Shallow embedding of the diagram-notation translator and syntax-repair
engine of this repository (plantuml_generator.py and
plantuml_syntax_fixer.py), together with theorems checking the
specification's claims about them.  Strings are modelled by Lean `String`
(logically a list of characters); Python regular expressions are modelled
by explicit character-list scanners that implement exactly the patterns
used by the source.
-/

/-- Python str.strip whitespace on the ASCII range (space, tab, newline,
carriage return, vertical tab, form feed). -/
def pyIsSpace (c : Char) : Bool :=
  c = ' ' || c = '\t' || c = '\n' || c = '\r' || c = '\x0b' || c = '\x0c'

/-- Python regex word character (for the character classes exercised by the
notation): ASCII alphanumerics, underscore, and the basic Cyrillic block. -/
def pyIsWordChar (c : Char) : Bool :=
  c.isAlphanum || c = '_' || (decide (0x400 ≤ c.toNat) && decide (c.toNat ≤ 0x4FF))

/-- Does the first list start with the second one? -/
def lStarts : List Char → List Char → Bool
  | _, [] => true
  | [], _ :: _ => false
  | c :: cs, p :: ps => c = p && lStarts cs ps

/-- Substring test on character lists (Python `in` on strings). -/
def lHasSub : List Char → List Char → Bool
  | [], needle => needle.isEmpty
  | c :: rest, needle => lStarts (c :: rest) needle || lHasSub rest needle

/-- Python str.startswith. -/
def sStarts (s p : String) : Bool := lStarts s.data p.data

/-- Python substring containment (`p in s`). -/
def sHasSub (s p : String) : Bool := lHasSub s.data p.data

/-- Python str.strip() on a character list. -/
def pyStripL (l : List Char) : List Char :=
  ((l.dropWhile pyIsSpace).reverse.dropWhile pyIsSpace).reverse

/-- Python str.strip(). -/
def pyStrip (s : String) : String := String.mk (pyStripL s.data)

/-- Python str.rstrip() on a character list. -/
def pyRStripL (l : List Char) : List Char := (l.reverse.dropWhile pyIsSpace).reverse

/-- Python str.rstrip(). -/
def pyRStrip (s : String) : String := String.mk (pyRStripL s.data)

/-- Python str.split on a single newline character, over character lists. -/
def splitNlL : List Char → List (List Char)
  | [] => [[]]
  | c :: rest =>
    if c = '\n' then [] :: splitNlL rest
    else
      match splitNlL rest with
      | h :: t => (c :: h) :: t
      | [] => [[c]]

/-- Python str.join with a newline separator, over character lists. -/
def joinNlL : List (List Char) → List Char
  | [] => []
  | l :: r =>
    match r with
    | [] => l
    | _ :: _ => l ++ '\n' :: joinNlL r

/-- Python code.split(chr(10)). -/
def splitLines (s : String) : List String := (splitNlL s.data).map String.mk

/-- Python newline.join(lines). -/
def joinLines (ls : List String) : String := String.mk (joinNlL (ls.map String.data))

/-- Concatenation of the images of a list-valued map (used for per-line
diagnostic accumulation). -/
def catMap (f : α → List β) : List α → List β
  | [] => []
  | a :: r => f a ++ catMap f r

/-- Python str.replace (all occurrences, leftmost, non-overlapping), with
fuel bounded by the length of the scanned list. -/
def replaceSubF (pat rep : List Char) : Nat → List Char → List Char
  | 0, l => l
  | _ + 1, [] => []
  | fuel + 1, c :: rest =>
    if pat ≠ [] ∧ lStarts (c :: rest) pat = true then
      rep ++ replaceSubF pat rep fuel ((c :: rest).drop pat.length)
    else c :: replaceSubF pat rep fuel rest

/-- Python s.replace(pat, rep). -/
def replaceSub (s pat rep : String) : String :=
  String.mk (replaceSubF pat.data rep.data s.data.length s.data)

/-- Control keywords checked for a spurious leading colon, in source order. -/
def colonKws : List String := ["if", "else", "endif", "start", "stop"]

/-- Word-boundary test after a keyword: the next character, if any, is not a
word character. -/
def boundaryAfter : List Char → Bool
  | [] => true
  | c :: _ => !pyIsWordChar c

/-- Test for the anchored pattern "optional whitespace, colon, keyword, word
boundary" (re.match of the colon-prefix patterns) on one line. -/
def colonMatch (kw : String) (l : String) : Bool :=
  let r := l.data.dropWhile pyIsSpace
  lStarts r (':' :: kw.data) && boundaryAfter (r.drop (kw.data.length + 1))

/-- Substitution of the colon-prefix pattern: strip the colon, keep the
leading whitespace (re.sub with the group-1 backreference). -/
def colonSub (kw : String) (l : String) : Option String :=
  if colonMatch kw l then
    some (String.mk (l.data.takeWhile pyIsSpace ++ kw.data ++
      (l.data.dropWhile pyIsSpace).drop (kw.data.length + 1)))
  else none

/-- Reserved identifiers rejected by the validator, in source order. -/
def forbiddenIds : List String :=
  ["end", "click", "class", "style", "subgraph", "graph", "flowchart"]

/-- Single pass counting lines opening and closing conditional blocks
(the if/endif counter of validate_plantuml_syntax). -/
def countIfEndif (ls : List String) : Nat × Nat :=
  ls.foldl (fun p l =>
    let s := pyStrip l
    if sStarts s "if " then (p.1 + 1, p.2)
    else if sStarts s "endif" then (p.1, p.2 + 1)
    else p) (0, 0)

/-- validate_plantuml_syntax from plantuml_syntax_fixer.py: returns the
validity flag and the ordered diagnostic list. -/
def validatePlantuml (code : String) : Bool × List String :=
  if code = "" then (false, ["Пустой PlantUML код"])
  else
    let lines := splitLines code
    let e1 := if lines.any (fun l => sHasSub l "@startuml") then []
      else ["Отсутствует @startuml"]
    let e2 := if lines.any (fun l => sHasSub l "@enduml") then []
      else ["Отсутствует @enduml"]
    let counts := countIfEndif lines
    let e3 := if counts.1 = counts.2 then []
      else ["Несоответствие количества if (" ++ toString counts.1 ++
            ") и endif (" ++ toString counts.2 ++ ")"]
    let e4 := catMap (fun l =>
      match forbiddenIds.find? (fun f => sHasSub l (" as " ++ f) || sHasSub l (" " ++ f ++ " ")) with
      | some f => ["Использование запрещенного ID: " ++ f]
      | none => []) lines
    let e5 := catMap (fun l =>
      match colonKws.find? (fun kw => colonMatch kw l) with
      | some kw => ["Двоеточие перед " ++ kw]
      | none => []) lines
    let e6 := if sHasSub code "!thme" then
      ["Использование \x27!thme\x27 вместо \x27!theme\x27"] else []
    let errors := e1 ++ e2 ++ e3 ++ e4 ++ e5 ++ e6
    (errors.isEmpty, errors)

/-- Fix category 1 of auto_fix_plantuml: the keyword typo, replaced globally
and logged once. -/
def fixThme (code : String) : String × List String :=
  if sHasSub code "!thme" then
    (replaceSub code "!thme" "!theme", ["Исправлено \x27!thme\x27 на \x27!theme\x27"])
  else (code, [])

/-- One pattern pass of fix category 2: per line, strip a spurious colon
before the given keyword and log the change. -/
def applyColonFix1 (kw : String) (code : String) : String × List String :=
  let rs := (splitLines code).map (fun l =>
    match colonSub kw l with
    | some l2 => (l2, ["Убрано двоеточие перед ключевым словом в строке: " ++ pyStrip l])
    | none => (l, []))
  (joinLines (rs.map (fun p => p.1)), catMap (fun p => p.2) rs)

/-- Fix category 2 of auto_fix_plantuml: the five colon-prefix patterns
applied successively to the whole text. -/
def applyColonFixes (code : String) : String × List String :=
  colonKws.foldl (fun acc kw =>
    let r := applyColonFix1 kw acc.1
    (r.1, acc.2 ++ r.2)) (code, [])

/-- Fix category 3 of auto_fix_plantuml on one line: append the continuation
keyword to a conditional-opening line that lacks it, and log. -/
def addThenLine (l : String) : String × List String :=
  if sStarts (pyStrip l) "if " && !sHasSub l " then" then
    (pyRStrip l ++ " then", ["Добавлено \x27then\x27 после if в строке: " ++ pyStrip l])
  else (l, [])

/-- Fix category 3 of auto_fix_plantuml over the whole text. -/
def addThenAll (code : String) : String × List String :=
  let ls := splitLines code
  (joinLines (ls.map (fun l => (addThenLine l).1)), catMap (fun l => (addThenLine l).2) ls)

/-- Forward scan of _validate_if_structure: positions of conditional-opening
lines left unclosed (push on open, pop on close). -/
def scanIfStack : List String → Nat → List Nat → List Nat
  | [], _, stack => stack
  | l :: rest, i, stack =>
    let s := pyStrip l
    if sStarts s "if " then scanIfStack rest (i + 1) (stack ++ [i])
    else if sStarts s "endif" then scanIfStack rest (i + 1) stack.dropLast
    else scanIfStack rest (i + 1) stack

/-- First index at or after `start` whose element satisfies the test. -/
def findIdxFrom (p : String → Bool) (start : Nat) (ls : List String) : Option Nat :=
  match (ls.drop start).findIdx? p with
  | some j => some (start + j)
  | none => none

/-- Python list.insert: insert before position `n`, appending when `n` is
past the end. -/
def insertAt : Nat → α → List α → List α
  | 0, a, l => a :: l
  | _ + 1, a, [] => [a]
  | n + 1, a, c :: t => c :: insertAt n a t

/-- Close one unclosed conditional opener: insert the closing keyword before
the next non-blank line after it, or append at the end of the text. -/
def insertEndifOne (ls : List String) (idx : Nat) : List String :=
  match findIdxFrom (fun l => pyStrip l != "") (idx + 1) ls with
  | some i => insertAt i "endif" ls
  | none => ls ++ ["endif"]

/-- Close every opener left on the stack, in stack order, against the
current (already mutated) line list — exactly Python's loop. -/
def insertEndifs (ls : List String) (stack : List Nat) : List String :=
  stack.foldl insertEndifOne ls

/-- _validate_if_structure from plantuml_syntax_fixer.py (fix category 4). -/
def validateIfStructure (code : String) : String :=
  let ls := splitLines code
  joinLines (insertEndifs ls (scanIfStack ls 0 []))

/-- auto_fix_plantuml from plantuml_syntax_fixer.py: returns the fixed text
and the ordered diagnostics. All fix categories run only when the initial
validation pass reports at least one error. -/
def autoFixPlantuml (code : String) : String × List String :=
  if (validatePlantuml code).1 then (code, [])
  else
    let r1 := fixThme code
    let r2 := applyColonFixes r1.1
    let r3 := addThenAll r2.1
    let c4 := validateIfStructure r3.1
    let remaining := (validatePlantuml c4).2
    let f4 := if remaining.isEmpty then []
      else ["Остающиеся ошибки после автоматического исправления: " ++
            String.intercalate ", " remaining]
    (c4, r1.2 ++ r2.2 ++ r3.2 ++ f4)

/-- Python str.lower on one character, for the ranges exercised by the
condition-marker heuristic: ASCII letters and the basic Cyrillic block. -/
def pyLowerChar (c : Char) : Char :=
  if 'A' ≤ c ∧ c ≤ 'Z' then Char.ofNat (c.toNat + 32)
  else if 0x410 ≤ c.toNat ∧ c.toNat ≤ 0x42F then Char.ofNat (c.toNat + 0x20)
  else if c.toNat = 0x401 then Char.ofNat 0x451
  else c

/-- Python str.lower. -/
def pyLower (s : String) : String := String.mk (s.data.map pyLowerChar)

/-- Anchored match of one-or-more word characters (the identifier prefix of
a notation node); returns the captured identifier. -/
def matchWord (s : String) : Option String :=
  let w := s.data.takeWhile pyIsWordChar
  if w.isEmpty then none else some (String.mk w)

/-- Anchored match of an identifier followed by a rectangular node body
(word characters, opening square bracket, one-or-more non-closing
characters, closing square bracket); returns identifier and body text. -/
def matchActor (s : String) : Option (String × String) :=
  let d := s.data
  let w := d.takeWhile pyIsWordChar
  if w.isEmpty then none
  else
    match d.drop w.length with
    | '[' :: r2 =>
      let cap := r2.takeWhile (fun x => x ≠ ']')
      if cap.isEmpty then none
      else
        match r2.drop cap.length with
        | ']' :: _ => some (String.mk w, String.mk cap)
        | _ => none
    | _ => none

/-- Anchored match of an identifier followed by a double-parenthesis node
body; returns identifier and body text. -/
def matchUsecase (s : String) : Option (String × String) :=
  let d := s.data
  let w := d.takeWhile pyIsWordChar
  if w.isEmpty then none
  else
    match d.drop w.length with
    | '(' :: '(' :: r2 =>
      let cap := r2.takeWhile (fun x => x ≠ ')')
      if cap.isEmpty then none
      else
        match r2.drop cap.length with
        | ')' :: ')' :: _ => some (String.mk w, String.mk cap)
        | _ => none
    | _ => none

/-- Unanchored regex search for "open delimiter, one-or-more characters that
are not the closing delimiter, closing delimiter"; returns the leftmost
capture (re.search of the bracket, brace and pipe-label patterns). -/
def searchDelimL (op cl : Char) : List Char → Option (List Char)
  | [] => none
  | c :: rest =>
    if c = op then
      let cap := rest.takeWhile (fun x => x ≠ cl)
      if cap.isEmpty then searchDelimL op cl rest
      else
        match rest.drop cap.length with
        | c2 :: _ => if c2 = cl then some cap else searchDelimL op cl rest
        | [] => searchDelimL op cl rest
    else searchDelimL op cl rest

/-- String wrapper for the delimiter search. -/
def searchDelim (op cl : Char) (s : String) : Option String :=
  (searchDelimL op cl s.data).map String.mk

/-- Removal of every pipe-delimited label match (re.sub of the label pattern
with the empty string), with fuel bounded by the scanned length. -/
def removePipeF : Nat → List Char → List Char
  | 0, l => l
  | _ + 1, [] => []
  | fuel + 1, c :: rest =>
    if c = '|' then
      let cap := rest.takeWhile (fun x => x ≠ '|')
      if cap.isEmpty then c :: removePipeF fuel rest
      else
        match rest.drop cap.length with
        | _ :: rest2 => removePipeF fuel rest2
        | [] => c :: removePipeF fuel rest
    else c :: removePipeF fuel rest

/-- Python re.sub removing pipe-delimited labels from a string. -/
def removePipe (s : String) : String := String.mk (removePipeF s.data.length s.data)

/-- Python str.split on a non-empty separator substring (leftmost,
non-overlapping), with fuel bounded by the scanned length. -/
def splitSubF (sep : List Char) : Nat → List Char → List (List Char)
  | 0, l => [l]
  | _ + 1, [] => [[]]
  | fuel + 1, c :: rest =>
    if sep ≠ [] ∧ lStarts (c :: rest) sep = true then
      [] :: splitSubF sep fuel ((c :: rest).drop sep.length)
    else
      match splitSubF sep fuel rest with
      | h :: t => (c :: h) :: t
      | [] => [[c]]

/-- Python s.split(sep) for a non-empty separator. -/
def sSplit (s sep : String) : List String :=
  (splitSubF sep.data s.data.length s.data).map String.mk

/-- Insertion-ordered dictionary update (Python dict assignment): an existing
key keeps its position and gets the new value, a new key is appended. -/
def dictSet (d : List (String × String)) (k v : String) : List (String × String) :=
  if d.any (fun p => p.1 == k) then d.map (fun p => if p.1 = k then (k, v) else p)
  else d ++ [(k, v)]

/-- Dictionary lookup (Python `k in d` / `d[k]`). -/
def dictGet? (d : List (String × String)) (k : String) : Option String :=
  (d.find? (fun p => p.1 == k)).map (fun p => p.2)

/-- State of the process-flow parse loop: the node table, the ordered edge
list, and the last successfully matched source identifier (`none` models
Python's still-unbound local `source_id`). -/
structure BpmnState where
  nodes : List (String × String)
  conns : List (String × String × String)
  srcId : Option String
deriving DecidableEq

/-- Node-text registration for one side of a process-flow edge: rectangular
body first, then curly decision body, else leave the table unchanged. -/
def updateNodesFrom (nodes : List (String × String)) (nid : String) (part : String) :
    List (String × String) :=
  match searchDelim '[' ']' part with
  | some t => dictSet nodes nid t
  | none =>
    match searchDelim '\x7b' '\x7d' part with
    | some t => dictSet nodes nid t
    | none => nodes

/-- One line of the process-flow parse loop of generateBPMNDiagram.  The
error case models the UnboundLocalError raised when an edge's target matches
while no source identifier was ever bound. -/
def processBpmnLine (st : BpmnState) (raw : String) : Except String BpmnState :=
  let line := pyStrip raw
  if line = "" || sStarts line "%%" then .ok st
  else if sHasSub line "-->" then
    let parts := sSplit line "-->"
    if parts.length ≥ 2 then
      let sourcePart := pyStrip parts.headI
      let st1 :=
        match matchWord sourcePart with
        | some sid =>
          { st with nodes := updateNodesFrom st.nodes sid sourcePart, srcId := some sid }
        | none => st
      let tp0 := pyStrip (parts.tail.headI)
      let lt :=
        match searchDelim '|' '|' tp0 with
        | some lab => (lab, pyStrip (removePipe tp0))
        | none => ("", tp0)
      match matchWord lt.2 with
      | some tid =>
        let nodes2 := updateNodesFrom st1.nodes tid lt.2
        match st1.srcId with
        | some sid => .ok { st1 with nodes := nodes2, conns := st1.conns ++ [(sid, tid, lt.1)] }
        | none => .error "UnboundLocalError: source_id"
      | none => .ok st1
    else .ok st
  else .ok st

/-- Fixed header block of the process-flow translator. -/
def bpmnHeader : List String :=
  ["@startuml", "!theme plain", "title BPMN Process Diagram",
   "skinparam participant \x7b", "  BackgroundColor LightGreen",
   "  BorderColor DarkGreen", "\x7d",
   "skinparam activity \x7b", "  BackgroundColor LightBlue",
   "  BorderColor DarkBlue", "\x7d",
   "skinparam decision \x7b", "  BackgroundColor LightYellow",
   "  BorderColor Orange", "\x7d"]

/-- Condition-marker heuristic of the process-flow translator: a literal
question mark, or a case-insensitive language-specific interrogative
substring. -/
def hasConditionMarker (txt : String) : Bool :=
  sHasSub txt "?" || sHasSub (pyLower txt) "как" || sHasSub (pyLower txt) "ли"

/-- Emission of one process-flow edge: a conditional-branch construct when
the source text carries a condition marker, a plain transition otherwise;
nothing when either endpoint is not in the node table. -/
def emitConnection (nodes : List (String × String)) (source target label : String) :
    List String :=
  match dictGet? nodes source, dictGet? nodes target with
  | some sourceText, some targetText =>
    if hasConditionMarker sourceText then
      if label ≠ "" then
        ["if \"" ++ sourceText ++ "\" then",
         "  -->[\"" ++ label ++ "\"] \"" ++ targetText ++ "\""]
      else
        ["if \"" ++ sourceText ++ "\" then", "  --> \"" ++ targetText ++ "\""]
    else
      if label ≠ "" then ["-->[\"" ++ label ++ "\"] \"" ++ targetText ++ "\""]
      else ["--> \"" ++ targetText ++ "\""]
  | _, _ => []

/-- generateBPMNDiagram from plantuml_generator.py.  The input is the
optional flow-notation field: `none` models a missing or empty input
dictionary, `some code` a dictionary carrying the field. -/
def generateBPMNDiagram (d : Option String) : Except String String :=
  match d with
  | none => .ok "@startuml\ntitle BPMN Diagram\n@enduml"
  | some mermaid => do
    let lines0 := splitLines (pyStrip mermaid)
    let lines1 :=
      match lines0 with
      | l0 :: rest => if sStarts (pyStrip l0) "flowchart" then rest else lines0
      | [] => lines0
    let st ← lines1.foldlM processBpmnLine ⟨[], [], none⟩
    let body :=
      "|" ::
      (match st.nodes with
       | [] => []
       | (_, v) :: _ =>
         ("(*) --> \"" ++ v ++ "\"") ::
         catMap (fun c => emitConnection st.nodes c.1 c.2.1 c.2.2) st.conns)
    .ok (joinLines (bpmnHeader ++ body ++ ["--> (*)", "@enduml"]))

/-- State of the actor-interaction parse loop: actor registry, use-case
registry, ordered relationship list, and the last successfully matched
source identifier (`none` models Python's still-unbound local). -/
structure UCState where
  actors : List (String × String)
  usecases : List (String × String)
  conns : List (String × String × String × String)
  srcId : Option String
deriving DecidableEq

/-- One line of the actor-interaction parse loop of generateUseCaseDiagram.
The error case models the UnboundLocalError raised when an edge's target
side classifies while no source identifier was ever bound. -/
def processUcLine (st : UCState) (raw : String) : Except String UCState :=
  let line := pyStrip raw
  if line = "" || sStarts line "%%" then .ok st
  else if sHasSub line "-->" || sHasSub line "-.->" then
    let pc := if sHasSub line "-->" then (sSplit line "-->", "-->")
      else (sSplit line "-.->", ".->")
    if pc.1.length ≥ 2 then
      let sourcePart := pyStrip pc.1.headI
      let st1 :=
        if sHasSub sourcePart "[" && !sHasSub sourcePart "(" then
          match matchActor sourcePart with
          | some idt => { st with actors := dictSet st.actors idt.1 idt.2, srcId := some idt.1 }
          | none => st
        else if sHasSub sourcePart "((" then
          match matchUsecase sourcePart with
          | some idt => { st with usecases := dictSet st.usecases idt.1 idt.2, srcId := some idt.1 }
          | none => st
        else st
      let tp0 := pyStrip (pc.1.tail.headI)
      let lt :=
        match searchDelim '|' '|' tp0 with
        | some lab => (lab, pyStrip (removePipe tp0))
        | none => ("", tp0)
      if sHasSub lt.2 "[" && !sHasSub lt.2 "(" then
        match matchActor lt.2 with
        | some idt =>
          match st1.srcId with
          | some sid =>
            .ok { st1 with actors := dictSet st1.actors idt.1 idt.2,
                           conns := st1.conns ++ [(sid, idt.1, pc.2, lt.1)] }
          | none => .error "UnboundLocalError: source_id"
        | none => .ok st1
      else if sHasSub lt.2 "((" then
        match matchUsecase lt.2 with
        | some idt =>
          match st1.srcId with
          | some sid =>
            .ok { st1 with usecases := dictSet st1.usecases idt.1 idt.2,
                           conns := st1.conns ++ [(sid, idt.1, pc.2, lt.1)] }
          | none => .error "UnboundLocalError: source_id"
        | none => .ok st1
      else .ok st1
    else .ok st
  else .ok st

/-- Whole actor-interaction parse pass over the notation lines. -/
def parseUseCaseLines (lines : List String) : Except String UCState :=
  lines.foldlM processUcLine ⟨[], [], [], none⟩

/-- Fixed header block of the actor-interaction translator. -/
def ucHeader : List String :=
  ["@startuml", "!theme plain", "title Use Case Diagram", "left to right direction",
   "skinparam actor \x7b", "  BackgroundColor LightGreen",
   "  BorderColor DarkGreen", "\x7d",
   "skinparam usecase \x7b", "  BackgroundColor LightBlue",
   "  BorderColor DarkBlue", "\x7d"]

/-- Rendering of one actor-interaction relationship line. -/
def emitUcConnection (c : String × String × String × String) : String :=
  let source := c.1
  let target := c.2.1
  let ct := c.2.2.1
  let label := c.2.2.2
  if label ≠ "" then
    if ct = ".->" then
      source ++ " ." ++ ct.drop 1 ++ " \"" ++ label ++ "\" " ++ target
    else
      source ++ " " ++ ct ++ " \"" ++ label ++ "\" " ++ target
  else source ++ " " ++ ct ++ " " ++ target

/-- generateUseCaseDiagram from plantuml_generator.py.  The input is the
optional interaction-notation field: `none` models a missing or empty input
dictionary, `some code` a dictionary carrying the field. -/
def generateUseCaseDiagram (d : Option String) : Except String String :=
  match d with
  | none => .ok "@startuml\ntitle Use Case Diagram\n@enduml"
  | some code => do
    let lines0 := splitLines (pyStrip code)
    let lines1 :=
      match lines0 with
      | l0 :: rest => if sStarts (pyStrip l0) "flowchart" then rest else lines0
      | [] => lines0
    let st ← parseUseCaseLines lines1
    let actorLines := st.actors.map (fun p => "actor \"" ++ p.2 ++ "\" as " ++ p.1)
    let ucLines := st.usecases.map (fun p => "usecase \"" ++ p.2 ++ "\" as " ++ p.1)
    let connLines := st.conns.map emitUcConnection
    .ok (joinLines (ucHeader ++ actorLines ++ [""] ++ ucLines ++ [""] ++ connLines ++ ["@enduml"]))

deriving instance DecidableEq for Except

set_option maxRecDepth 100000

lemma lStarts_refl (l : List Char) : lStarts l l = true := by
  induction l with
  | nil => rfl
  | cons c cs ih => simp [lStarts, ih]

lemma lHasSub_append_self (a b : List Char) : lHasSub (a ++ b) b = true := by
  induction a with
  | nil =>
    cases b with
    | nil => rfl
    | cons c cs => simp [lHasSub, lStarts_refl]
  | cons c cs ih => simp [lHasSub, ih]

lemma data_append (a b : String) : (a ++ b).data = a.data ++ b.data := rfl

lemma sHasSub_append_right (a b : String) : sHasSub (a ++ b) b = true := by
  unfold sHasSub
  rw [data_append]
  exact lHasSub_append_self a.data b.data

lemma addThenLine_then (l : String) :
    sStarts (pyStrip (addThenLine l).1) "if " = true →
    sHasSub (addThenLine l).1 " then" = true := by
  unfold addThenLine
  split
  · intro _
    exact sHasSub_append_right (pyRStrip l) " then"
  next h =>
    intro hs
    cases hth : sHasSub l " then" with
    | true => rfl
    | false => exact absurd (by simp [hs, hth]) h

lemma mem_of_mem_dropWhileChar {x : Char} {p : Char → Bool} {l : List Char}
    (h : x ∈ l.dropWhile p) : x ∈ l := by
  induction l with
  | nil => simp at h
  | cons c t ih =>
    by_cases hc : p c = true
    · rw [List.dropWhile_cons_of_pos hc] at h
      exact List.mem_cons_of_mem c (ih h)
    · rw [List.dropWhile_cons_of_neg hc] at h
      exact h

lemma pyRStripL_no_nl {l : List Char} (h : '\n' ∉ l) : '\n' ∉ pyRStripL l := by
  intro hmem
  unfold pyRStripL at hmem
  rw [List.mem_reverse] at hmem
  exact h (List.mem_reverse.mp (mem_of_mem_dropWhileChar hmem))

lemma addThenLine_no_nl (l : String) (h : '\n' ∉ l.data) :
    '\n' ∉ ((addThenLine l).1).data := by
  unfold addThenLine
  split
  · intro hmem
    rw [data_append] at hmem
    rcases List.mem_append.mp hmem with hm | hm
    · exact pyRStripL_no_nl h hm
    · exact absurd hm (by decide)
  · exact h

lemma splitNlL_ne_nil (l : List Char) : splitNlL l ≠ [] := by
  induction l with
  | nil => simp [splitNlL]
  | cons c rest ih =>
    unfold splitNlL
    split
    · simp
    · cases h : splitNlL rest with
      | nil => simp
      | cons a b => simp

lemma mem_splitNlL_no_nl (s : List Char) : ∀ l ∈ splitNlL s, '\n' ∉ l := by
  induction s with
  | nil =>
    intro l hl
    simp [splitNlL] at hl
    subst hl
    simp
  | cons c rest ih =>
    intro l hl
    unfold splitNlL at hl
    by_cases hc : c = '\n'
    · rw [if_pos hc] at hl
      rcases List.mem_cons.mp hl with h1 | h1
      · subst h1; simp
      · exact ih l h1
    · rw [if_neg hc] at hl
      cases h : splitNlL rest with
      | nil =>
        rw [h] at hl
        simp at hl
        subst hl
        intro hmem
        rcases List.mem_cons.mp hmem with h2 | h2
        · exact hc h2.symm
        · simp at h2
      | cons a b =>
        rw [h] at hl
        rcases List.mem_cons.mp hl with h1 | h1
        · subst h1
          intro hmem
          rcases List.mem_cons.mp hmem with h2 | h2
          · exact hc h2.symm
          · exact ih a (by rw [h]; exact List.mem_cons_self a b) h2
        · exact ih l (by rw [h]; exact List.mem_cons_of_mem a h1)

lemma splitNlL_append (a : List Char) (r : List Char) (h : List Char)
    (t : List (List Char)) (hnl : '\n' ∉ a) (hr : splitNlL r = h :: t) :
    splitNlL (a ++ r) = (a ++ h) :: t := by
  induction a with
  | nil => simpa using hr
  | cons c a2 ih =>
    have hc : ¬(c = '\n') := by
      intro e
      subst e
      exact hnl (List.mem_cons_self _ _)
    have hnl2 : '\n' ∉ a2 := fun m => hnl (List.mem_cons_of_mem c m)
    show splitNlL (c :: (a2 ++ r)) = ((c :: a2) ++ h) :: t
    unfold splitNlL
    rw [if_neg hc, ih hnl2]
    rfl

lemma splitNlL_joinNlL (L : List (List Char)) (hne : L ≠ [])
    (hnl : ∀ l ∈ L, '\n' ∉ l) : splitNlL (joinNlL L) = L := by
  induction L with
  | nil => exact absurd rfl hne
  | cons l L2 ih =>
    cases L2 with
    | nil =>
      show splitNlL (joinNlL [l]) = [l]
      have hj : joinNlL [l] = l := rfl
      rw [hj]
      have := splitNlL_append l [] [] [] (hnl l (List.mem_cons_self l [])) rfl
      simpa using this
    | cons m M =>
      have hj : joinNlL (l :: m :: M) = l ++ '\n' :: joinNlL (m :: M) := rfl
      rw [hj]
      have hrec : splitNlL (joinNlL (m :: M)) = m :: M :=
        ih (by simp) (fun x hx => hnl x (List.mem_cons_of_mem l hx))
      have hsp : splitNlL ('\n' :: joinNlL (m :: M)) = [] :: m :: M := by
        unfold splitNlL
        rw [if_pos rfl, hrec]
      have := splitNlL_append l ('\n' :: joinNlL (m :: M)) [] (m :: M)
        (hnl l (List.mem_cons_self l (m :: M))) hsp
      rw [this]
      simp

lemma splitLines_joinLines (S : List String) (h1 : S ≠ [])
    (h2 : ∀ s ∈ S, '\n' ∉ s.data) : splitLines (joinLines S) = S := by
  unfold splitLines joinLines
  rw [show (String.mk (joinNlL (S.map String.data))).data = joinNlL (S.map String.data) from rfl]
  rw [splitNlL_joinNlL (S.map String.data) (by simpa using h1)
    (by intro l hl
        rcases List.mem_map.mp hl with ⟨s, hs, rfl⟩
        exact h2 s hs)]
  rw [List.map_map, show String.mk ∘ String.data = id from funext fun s => rfl, List.map_id]

lemma mem_splitLines_no_nl (s : String) : ∀ l ∈ splitLines s, '\n' ∉ l.data := by
  intro l hl
  unfold splitLines at hl
  rcases List.mem_map.mp hl with ⟨c, hc, rfl⟩
  simpa using mem_splitNlL_no_nl s.data c hc

lemma splitLines_ne_nil (s : String) : splitLines s ≠ [] := by
  unfold splitLines
  intro h
  exact splitNlL_ne_nil s.data (List.map_eq_nil_iff.mp h)

lemma addThenAll_lines (code : String) :
    splitLines (addThenAll code).1 = (splitLines code).map (fun l => (addThenLine l).1) := by
  show splitLines (joinLines ((splitLines code).map (fun l => (addThenLine l).1))) = _
  apply splitLines_joinLines
  · intro h
    exact splitLines_ne_nil code (List.map_eq_nil_iff.mp h)
  · intro s hs
    rcases List.mem_map.mp hs with ⟨l, hl, rfl⟩
    exact addThenLine_no_nl l (mem_splitLines_no_nl code l hl)

lemma mem_insertAt {α : Type} (x a : α) : ∀ (n : Nat) (l : List α),
    x ∈ insertAt n a l → x ∈ l ∨ x = a := by
  intro n
  induction n with
  | zero =>
    intro l h
    rcases List.mem_cons.mp h with h | h
    · exact Or.inr h
    · exact Or.inl h
  | succ n ih =>
    intro l h
    cases l with
    | nil =>
      simp [insertAt] at h
      exact Or.inr h
    | cons c t =>
      rcases List.mem_cons.mp h with h | h
      · exact Or.inl (by rw [h]; exact List.mem_cons_self c t)
      · rcases ih t h with h2 | h2
        · exact Or.inl (List.mem_cons_of_mem c h2)
        · exact Or.inr h2

lemma insertAt_ne_nil {α : Type} (n : Nat) (a : α) (l : List α) : insertAt n a l ≠ [] := by
  cases n <;> cases l <;> simp [insertAt]

lemma mem_insertEndifOne (x : String) (ls : List String) (idx : Nat)
    (h : x ∈ insertEndifOne ls idx) : x ∈ ls ∨ x = "endif" := by
  unfold insertEndifOne at h
  revert h
  cases findIdxFrom (fun l => pyStrip l != "") (idx + 1) ls with
  | none =>
    intro h
    rcases List.mem_append.mp h with h2 | h2
    · exact Or.inl h2
    · simp at h2
      exact Or.inr h2
  | some i =>
    intro h
    exact mem_insertAt x "endif" i ls h

lemma insertEndifOne_ne_nil (ls : List String) (idx : Nat) : insertEndifOne ls idx ≠ [] := by
  unfold insertEndifOne
  cases findIdxFrom (fun l => pyStrip l != "") (idx + 1) ls with
  | none => simp
  | some i => exact insertAt_ne_nil i "endif" ls

lemma mem_insertEndifs (x : String) (stack : List Nat) : ∀ (ls : List String),
    x ∈ insertEndifs ls stack → x ∈ ls ∨ x = "endif" := by
  unfold insertEndifs
  induction stack with
  | nil => intro ls h; exact Or.inl h
  | cons i st ih =>
    intro ls h
    rw [List.foldl_cons] at h
    rcases ih (insertEndifOne ls i) h with h2 | h2
    · exact mem_insertEndifOne x ls i h2
    · exact Or.inr h2

lemma insertEndifs_ne_nil (stack : List Nat) : ∀ (ls : List String), ls ≠ [] →
    insertEndifs ls stack ≠ [] := by
  unfold insertEndifs
  induction stack with
  | nil => intro ls h; exact h
  | cons i st ih =>
    intro ls _
    rw [List.foldl_cons]
    exact ih (insertEndifOne ls i) (insertEndifOne_ne_nil ls i)

lemma mem_validateIfStructure_lines (code : String) (x : String)
    (hx : x ∈ splitLines (validateIfStructure code)) :
    x ∈ splitLines code ∨ x = "endif" := by
  unfold validateIfStructure at hx
  have hne : insertEndifs (splitLines code) (scanIfStack (splitLines code) 0 []) ≠ [] :=
    insertEndifs_ne_nil (scanIfStack (splitLines code) 0 []) (splitLines code)
      (splitLines_ne_nil code)
  have hnl : ∀ y ∈ insertEndifs (splitLines code) (scanIfStack (splitLines code) 0 []),
      '\n' ∉ y.data := by
    intro y hy
    rcases mem_insertEndifs y (scanIfStack (splitLines code) 0 []) (splitLines code) hy with h | h
    · exact mem_splitLines_no_nl code y h
    · rw [h]; decide
  rw [splitLines_joinLines _ hne hnl] at hx
  exact mem_insertEndifs x (scanIfStack (splitLines code) 0 []) (splitLines code) hx

/-- Claim C1 (code evaluation at the failing input): on a notation line
whose source side matches neither the rectangular actor form nor the
double-parenthesis use-case form while the target side does match, the
actor-interaction translator does not skip the line — it aborts with the
modelled UnboundLocalError on the never-bound source identifier, instead
of returning a string. -/
theorem usecase_unmatched_source_raises :
    generateUseCaseDiagram (some "X --> B((Login))") =
      .error "UnboundLocalError: source_id" := by decide

/-- Claim C2 counterexample: the missing-key input and the empty
flow-notation string do not return the same output. -/
theorem bpmn_empty_inputs_differ :
    generateBPMNDiagram none ≠ generateBPMNDiagram (some "") := by decide

/-- Claim C2 (amended): the missing-key input returns the minimal
empty-diagram skeleton, while the empty flow-notation string returns the
full styled header block followed by the lane separator, the synthetic
end transition and the footer, with no node or edge body lines; the two
outputs differ. -/
theorem bpmn_skeleton_outputs :
    generateBPMNDiagram none = .ok "@startuml\ntitle BPMN Diagram\n@enduml" ∧
    generateBPMNDiagram (some "") =
      .ok (joinLines (bpmnHeader ++ ["|", "--> (*)", "@enduml"])) := by decide

/-- Claim C3 counterexample: a diagram text that passes validation is
returned unchanged even though it contains a conditional-opening line
without the continuation keyword, so the appending does not happen on
inputs with no other defect. -/
theorem autofix_no_then_on_valid_input :
    autoFixPlantuml "@startuml\nif (x)\nendif\n@enduml" =
      ("@startuml\nif (x)\nendif\n@enduml", []) ∧
    "if (x)" ∈ splitLines "@startuml\nif (x)\nendif\n@enduml" ∧
    sStarts (pyStrip "if (x)") "if " = true ∧
    sHasSub "if (x)" " then" = false := by decide

/-- Claim C3 (amended): the continuation keyword is appended to every
conditional-opening line lacking it only when the initial validation pass
reports at least one error — in that case every line of the repaired text
that opens a conditional contains the keyword; when validation passes,
the repair pass returns the text unchanged with empty diagnostics. -/
theorem autofix_then_trigger (t : String) :
    ((validatePlantuml t).1 = false →
      ∀ line ∈ splitLines (autoFixPlantuml t).1,
        sStarts (pyStrip line) "if " = true → sHasSub line " then" = true) ∧
    ((validatePlantuml t).1 = true → autoFixPlantuml t = (t, [])) := by
  constructor
  · intro hv line hmem hstart
    have hfix : (autoFixPlantuml t).1 =
        validateIfStructure (addThenAll (applyColonFixes (fixThme t).1).1).1 := by
      unfold autoFixPlantuml
      rw [if_neg (by rw [hv]; simp)]
    rw [hfix] at hmem
    rcases mem_validateIfStructure_lines _ line hmem with hin | hend
    · rw [addThenAll_lines] at hin
      rcases List.mem_map.mp hin with ⟨l0, _, rfl⟩
      exact addThenLine_then l0 hstart
    · rw [hend] at hstart
      exact absurd hstart (by decide)
  · intro hv
    unfold autoFixPlantuml
    rw [if_pos hv]

/-- Claim C3 witness: the amended theorem applied at a concrete invalid
input whose conditional line lacks the continuation keyword. -/
theorem autofix_then_trigger_wit : sHasSub "if (x) then" " then" = true :=
  (autofix_then_trigger "@startuml\nif (x)\n@enduml").1 (by decide)
    "if (x) then" (by decide) (by decide)

/-- Claim C4 counterexample: the empty string is not the pathological
unbalanced-block case, yet a second repair run on the first run's output
still produces a non-empty diagnostics list. -/
theorem autofix_twice_diag_nonempty :
    (autoFixPlantuml (autoFixPlantuml "").1).2 ≠ [] := by decide

/-- Claim C4 (amended): running the repair pass a second time yields empty
diagnostics exactly on those inputs whose once-repaired text passes
validation; inputs whose residual defects the engine never fixes (for
example a missing end marker, or empty text) keep non-empty diagnostics,
not only the unbalanced-block case of fix category 4. -/
theorem autofix_second_pass_empty (t : String)
    (h : (validatePlantuml (autoFixPlantuml t).1).1 = true) :
    (autoFixPlantuml (autoFixPlantuml t).1).2 = [] := by
  generalize (autoFixPlantuml t).1 = s at h ⊢
  unfold autoFixPlantuml
  rw [if_pos h]

/-- Claim C4 witness: the amended theorem applied at a concrete input whose
repaired text passes validation. -/
theorem autofix_second_pass_empty_wit :
    (autoFixPlantuml (autoFixPlantuml "@startuml\n@enduml").1).2 = [] :=
  autofix_second_pass_empty "@startuml\n@enduml" (by decide)

/-- Claim C5: on the one-unclosed-conditional input without an end marker,
the repair pass inserts exactly one closing-keyword line before the end of
the text and no other closing-keyword line (the input has none, the output
exactly one, placed before the trailing lines). -/
theorem autofix_balance_scenario :
    autoFixPlantuml "@startuml\nif (x?) then\n:a;\n" =
      ("@startuml\nif (x?) then\nendif\n:a;\n",
       ["Остающиеся ошибки после автоматического исправления: Отсутствует @enduml"]) ∧
    (splitLines "@startuml\nif (x?) then\nendif\n:a;\n").count "endif" = 1 ∧
    (splitLines "@startuml\nif (x?) then\n:a;\n").count "endif" = 0 := by decide

/-- Claim C6: on the same original input the validation pass reports
invalidity together with both the missing-end-marker error and the
if/endif count-mismatch error, in that order. -/
theorem validate_missing_end_and_mismatch :
    validatePlantuml "@startuml\nif (x?) then\n:a;\n" =
      (false, ["Отсутствует @enduml", "Несоответствие количества if (1) и endif (0)"]) := by
  decide

/-- Claim C7: for an edge whose endpoints are both registered, the emitted
block is a conditional-branch construct (the if-then header followed by the
indented transition) exactly when the source text carries the condition
marker (a literal question mark or one of the case-insensitive
interrogative substrings), and a single plain labeled or unlabeled
transition exactly when it does not. -/
theorem bpmn_conditional_vs_plain (nodes : List (String × String))
    (source target label sText tText : String)
    (hs : dictGet? nodes source = some sText)
    (ht : dictGet? nodes target = some tText) :
    (hasConditionMarker sText = true →
      emitConnection nodes source target label =
        ["if \"" ++ sText ++ "\" then",
         if label ≠ "" then "  -->[\"" ++ label ++ "\"] \"" ++ tText ++ "\""
         else "  --> \"" ++ tText ++ "\""]) ∧
    (hasConditionMarker sText = false →
      emitConnection nodes source target label =
        [if label ≠ "" then "-->[\"" ++ label ++ "\"] \"" ++ tText ++ "\""
         else "--> \"" ++ tText ++ "\""]) := by
  constructor <;> intro hm <;> by_cases hl : label = "" <;>
    simp [emitConnection, hs, ht, hm, hl]

/-- Claim C7 witness: the theorem applied at a concrete node table with a
marked source text. -/
theorem bpmn_conditional_vs_plain_wit :
    dictGet? [("a", "x?"), ("b", "y")] "a" = some "x?" ∧
    hasConditionMarker "x?" = true ∧
    emitConnection [("a", "x?"), ("b", "y")] "a" "b" "" =
      ["if \"x?\" then", "  --> \"y\""] := by
  refine ⟨by decide, by decide, ?_⟩
  have h := (bpmn_conditional_vs_plain [("a", "x?"), ("b", "y")] "a" "b" "" "x?" "y"
    (by decide) (by decide)).1 (by decide)
  simpa using h

/-- Claim C8: an edge whose source or target identifier was never
registered in the node table contributes zero output lines (and the
emission is a total function, so no error is raised for it). -/
theorem bpmn_dangling_edge_skipped (nodes : List (String × String))
    (source target label : String)
    (h : dictGet? nodes source = none ∨ dictGet? nodes target = none) :
    emitConnection nodes source target label = [] := by
  cases hs : dictGet? nodes source <;> cases ht : dictGet? nodes target <;>
    simp_all [emitConnection]

/-- Claim C8 witness: the theorem applied at the empty node table. -/
theorem bpmn_dangling_edge_skipped_wit :
    dictGet? [] "a" = none ∧ emitConnection [] "a" "b" "" = [] :=
  ⟨by decide, bpmn_dangling_edge_skipped [] "a" "b" "" (Or.inl (by decide))⟩

/-- Claim C9: on the single notation line with a rectangular source and a
double-parenthesis target, the parse registers the source in the actor
registry with its text, the target in the use-case registry with its text,
and exactly one relationship with the solid connector and the empty label;
the rendered output carries exactly that one relationship line between the
two identifiers. -/
theorem usecase_classification_scenario :
    parseUseCaseLines ["A[User] --> B((Login))"] =
      .ok ⟨[("A", "User")], [("B", "Login")], [("A", "B", "-->", "")], some "A"⟩ ∧
    generateUseCaseDiagram (some "A[User] --> B((Login))") =
      .ok (joinLines (ucHeader ++
        ["actor \"User\" as A", "", "usecase \"Login\" as B", "", "A --> B", "@enduml"])) := by
  decide

/-- Claim C10: on the empty-string input the repair pass returns the text
unchanged together with exactly one diagnostic entry — the remaining-errors
entry reporting the empty-code validation error — so a non-empty
diagnostics list does not imply the text was modified. -/
theorem autofix_empty_string :
    autoFixPlantuml "" =
      ("", ["Остающиеся ошибки после автоматического исправления: Пустой PlantUML код"]) := by
  decide
